import Mathlib

/-!
Verification of the peer-attachment and node-runtime-provisioning subsystem
of luxdefi/netrunner (package `local`: `node.go` and the provisioning helpers).

Modelling conventions:
- Go's dynamically typed configuration values (`interface{}`) are modelled by
  the inductive `GoVal`.  A Go `float64` is modelled by the integer obtained by
  truncating it toward zero (`GoVal.vFloat`): every operation of this subsystem
  on a float value depends only on that truncation.
- Go maps `map[string]T` are modelled either as functions `String → Option T`
  (when the code only looks keys up) or as association lists `List (String × T)`
  (when the code iterates over the entries; Go's iteration order is arbitrary,
  and none of the proved properties depend on the order of the list).
- Filesystem paths are modelled as lists of path components (`Path`);
  `filepath.Join(dir, name)` is `dir ++ [name]` and `filepath.Dir` is
  `List.dropLast`.
- External effects (base64 decoding, `os.MkdirAll` / `os.Create` success, the
  OS-assigned free port, `json.Unmarshal`, the dial / handshake / readiness
  steps of `AttachPeer`) are supplied as explicit oracle parameters; the code
  under verification only branches on their outcomes.
-/

set_option autoImplicit false

namespace Netrunner

/-- A dynamically typed Go configuration value (`interface{}` restricted to the
shapes this subsystem inspects).  `vFloat` carries the integer truncation of
the Go `float64`. -/
inductive GoVal where
  | vString (s : String)
  | vInt (n : Int)
  | vFloat (f : Int)
  | vBool (b : Bool)
deriving DecidableEq, Repr

/-- The string produced by Go's `%T` verb for the dynamic type of a value. -/
def goTypeName : GoVal → String
  | .vString _ => "string"
  | .vInt _ => "int"
  | .vFloat _ => "float64"
  | .vBool _ => "bool"

/-- Go's `%q` verb on a plain flag key: the key surrounded by double quotes. -/
def goQuote (s : String) : String := "\"" ++ s ++ "\""

/-- Lookup in an association list modelling a Go map: first binding wins
(insertions are modelled by consing at the front, so the newest binding is
found first, matching Go map overwrite semantics). -/
def mapGet {V : Type} : List (String × V) → String → Option V
  | [], _ => none
  | kv :: rest, key => if kv.1 = key then some kv.2 else mapGet rest key

@[simp] theorem mapGet_nil {V : Type} (key : String) :
    mapGet ([] : List (String × V)) key = none := rfl

@[simp] theorem mapGet_cons {V : Type} (kv : String × V)
    (rest : List (String × V)) (key : String) :
    mapGet (kv :: rest) key = if kv.1 = key then some kv.2 else mapGet rest key := rfl

/-! ## Config Merger (`addNetworkFlags`, src/unnamed/part_000 lines 205-215)

Go iterates over the entries of `networkFlags` and, for each flag name not
already present in `nodeFlags`, inserts it into `nodeFlags`.  The entries of
the network map are modelled as an association list (iteration order is
arbitrary); the node map is threaded through the fold. -/

/-- `addNetworkFlags networkFlags nodeFlags` adds every flag of
`networkFlags` whose name is absent from `nodeFlags` to `nodeFlags`;
a flag given in both keeps the node map's value. -/
def addNetworkFlags (networkFlags : List (String × GoVal))
    (nodeFlags : List (String × GoVal)) : List (String × GoVal) :=
  networkFlags.foldl
    (fun acc kv => if (mapGet acc kv.1).isSome then acc else kv :: acc)
    nodeFlags

@[simp] theorem addNetworkFlags_nil (nodeFlags : List (String × GoVal)) :
    addNetworkFlags [] nodeFlags = nodeFlags := rfl

theorem addNetworkFlags_cons (kv : String × GoVal)
    (rest nodeFlags : List (String × GoVal)) :
    addNetworkFlags (kv :: rest) nodeFlags =
      addNetworkFlags rest
        (if (mapGet nodeFlags kv.1).isSome then nodeFlags else kv :: nodeFlags) := rfl

theorem addNetworkFlags_preserves_node (networkFlags : List (String × GoVal))
    (nodeFlags : List (String × GoVal)) (k : String) (v : GoVal)
    (h : mapGet nodeFlags k = some v) :
    mapGet (addNetworkFlags networkFlags nodeFlags) k = some v := by
  induction networkFlags generalizing nodeFlags with
  | nil => exact h
  | cons kv rest ih =>
    rw [addNetworkFlags_cons]
    by_cases hmem : (mapGet nodeFlags kv.1).isSome
    · rw [if_pos hmem]
      exact ih nodeFlags h
    · rw [if_neg hmem]
      apply ih
      rw [mapGet_cons]
      by_cases hk : kv.1 = k
      · subst hk
        rw [h] at hmem
        simp at hmem
      · rw [if_neg hk]
        exact h

theorem addNetworkFlags_copies_network (networkFlags : List (String × GoVal))
    (nodeFlags : List (String × GoVal)) (k : String) (v : GoVal)
    (hnode : mapGet nodeFlags k = none)
    (hnet : mapGet networkFlags k = some v) :
    mapGet (addNetworkFlags networkFlags nodeFlags) k = some v := by
  induction networkFlags generalizing nodeFlags with
  | nil => simp at hnet
  | cons kv rest ih =>
    rw [addNetworkFlags_cons]
    rw [mapGet_cons] at hnet
    by_cases hk : kv.1 = k
    · subst hk
      rw [if_pos rfl] at hnet
      simp only [hnode, Option.isSome_none, Bool.false_eq_true, if_false]
      apply addNetworkFlags_preserves_node
      rw [mapGet_cons, if_pos rfl]
      exact hnet
    · rw [if_neg hk] at hnet
      by_cases hmem : (mapGet nodeFlags kv.1).isSome
      · rw [if_pos hmem]
        exact ih nodeFlags hnode hnet
      · rw [if_neg hmem]
        apply ih
        · rw [mapGet_cons, if_neg hk]
          exact hnode
        · exact hnet

/-! ## Port Resolver (`getPort`, src/unnamed/part_000 lines 139-166) -/

/-- Go's conversion `uint16(n)` of an integer: reduction modulo 2^16. -/
def toPort16 (n : Int) : Nat := (n % 65536).toNat

/-- `getPort flags configFile freePort portKey` resolves a port: an `int` or
`float64` under `portKey` in `flags` is truncated to 16 bits; otherwise a
`float64` under `portKey` in `configFile` is truncated to 16 bits; otherwise
the OS supplies a free port (`freePort` models `getFreePort()`).  Any value of
another dynamic type is a type-mismatch error. -/
def getPort (flags : String → Option GoVal) (configFile : String → Option GoVal)
    (freePort : Except String Nat) (portKey : String) : Except String Nat :=
  match flags portKey with
  | some portIntf =>
    match portIntf with
    | .vInt gotPort => .ok (toPort16 gotPort)
    | .vFloat gotPort => .ok (toPort16 gotPort)
    | _ => .error ("expected flag " ++ goQuote portKey ++ " to be int/float64 but got "
        ++ goTypeName portIntf)
  | none =>
    match configFile portKey with
    | some portIntf =>
      match portIntf with
      | .vFloat portFromConfigFile => .ok (toPort16 portFromConfigFile)
      | _ => .error ("expected flag " ++ goQuote portKey ++ " to be float64 but got "
          ++ goTypeName portIntf)
    | none =>
      match freePort with
      | .ok p => .ok p
      | .error e => .error ("couldn't get free port: " ++ e)

/-! ## Typed string lookup (`getConfigEntry`, src/unnamed/part_000 lines 115-135)

The Go source declares `var entry string` and then, in each branch, shadows it
with `if entry, ok := val.(string); ok { return entry, nil }`.  The
`fmt.Errorf(..., flag, entry)` that follows is outside the inner `if`, so its
`%T` formats the OUTER `entry` — whose static and dynamic type is always
`string` — not the value that failed the assertion.  The model reproduces this:
the reported type is the literal `"string"` regardless of the actual value. -/

/-- `getConfigEntry nodeConfigFlags configFile flag defaultVal` returns the
string under `flag` in the node flags, else in the config-file map, else the
default; a present non-string value is a type-mismatch error (whose `%T`
reports the shadowing outer variable's type, `string`). -/
def getConfigEntry (nodeConfigFlags : String → Option GoVal)
    (configFile : String → Option GoVal) (flag : String) (defaultVal : String) :
    Except String String :=
  match nodeConfigFlags flag with
  | some val =>
    match val with
    | .vString entry => .ok entry
    | _ => .error ("expected node config flag " ++ goQuote flag
        ++ " to be string but got string")
  | none =>
    match configFile flag with
    | some val =>
      match val with
      | .vString entry => .ok entry
      | _ => .error ("expected config file flag " ++ goQuote flag
          ++ " to be string but got string")
    | none => .ok defaultVal

/-! ## `GetFlag` (src/local/node.go lines 267-291) -/

/-- `GetFlag parseJson configFile flags k`: when the raw config-file text is
non-empty it is parsed (`parseJson` models `json.Unmarshal`) and only the
parsed document is consulted; otherwise the flag map (when non-nil) is
consulted.  An absent key yields the zero value `""` with no error; a present
non-string value is a type-mismatch error naming the key and the actual
dynamic type. -/
def GetFlag (parseJson : String → Except String (String → Option GoVal))
    (configFile : String) (flags : Option (String → Option GoVal)) (k : String) :
    Except String String :=
  if configFile ≠ "" then
    match parseJson configFile with
    | .error e => .error e
    | .ok configFileMap =>
      match configFileMap k with
      | some vIntf =>
        match vIntf with
        | .vString v => .ok v
        | _ => .error ("unexpected type for " ++ goQuote k ++ " expected string got "
            ++ goTypeName vIntf)
      | none => .ok ""
  else
    match flags with
    | some flagMap =>
      match flagMap k with
      | some vIntf =>
        match vIntf with
        | .vString v => .ok v
        | _ => .error ("unexpected type for " ++ goQuote k ++ " expected string got "
            ++ goTypeName vIntf)
      | none => .ok ""
    | none => .ok ""

/-! ## Peer attachment (`AttachPeer` / `SendOutboundMessage`,
src/local/node.go lines 84-194)

`AttachPeer` is a straight-line sequence of fallible steps (TLS certificate
generation, dial, two message-creator constructions, metrics, resource
tracker, handshake upgrade, readiness wait); each step's outcome is supplied
by an `AttachEnv` oracle (a readiness timeout and a caller cancellation both
surface as an `awaitReady` error).  The only mutable state touched is the
handle's `attachedPeers` map, modelled as an association list with newest
binding first. -/

/-- An opcode-tagged wire message, as built by `message.NewTestMsg(op, content,
compressed)`. -/
structure MsgM where
  op : Nat
  content : List Nat
  compressed : Bool

/-- `NewTestMsg op content compressed` models `message.NewTestMsg`. -/
def NewTestMsg (op : Nat) (content : List Nat) (compressed : Bool) : MsgM :=
  ⟨op, content, compressed⟩

/-- A live attached peer: its derived identity string (`p.ID().String()`,
computed from the ephemeral TLS certificate) and its send path
(`p.Send(ctx, msg)` returns whether the message was accepted into the
outbound queue). -/
structure PeerM where
  id : String
  sendAccepts : MsgM → Bool

/-- The attached-peer registry of one node runtime handle
(`localNode.attachedPeers`). -/
abbrev Registry : Type := List (String × PeerM)

/-- Go map assignment `node.attachedPeers[k] = p`: the newest binding shadows
any older one. -/
def registryInsert (reg : Registry) (k : String) (p : PeerM) : Registry :=
  (k, p) :: reg

/-- Outcomes of the fallible steps of one `AttachPeer` invocation, plus the
peer object produced by `peer.Start` when every step succeeds. -/
structure AttachEnv where
  newTLSCert : Except String Unit
  getConn : Except String Unit
  newCreator : Except String Unit
  newCreatorWithProto : Except String Unit
  newMetrics : Except String Unit
  newResourceTracker : Except String Unit
  upgrade : Except String Unit
  awaitReady : Except String Unit
  startedPeer : PeerM

/-- `AttachPeer`: runs the attachment steps in source order; the first failing
step's error is returned and nothing is registered.  Only on full success is
the started peer inserted into the registry under its derived identity
string, and returned. -/
def AttachPeer (env : AttachEnv) (attachedPeers : Registry) :
    Except String PeerM × Registry :=
  match env.newTLSCert with
  | .error e => (.error e, attachedPeers)
  | .ok _ =>
    match env.getConn with
    | .error e => (.error e, attachedPeers)
    | .ok _ =>
      match env.newCreator with
      | .error e => (.error e, attachedPeers)
      | .ok _ =>
        match env.newCreatorWithProto with
        | .error e => (.error e, attachedPeers)
        | .ok _ =>
          match env.newMetrics with
          | .error e => (.error e, attachedPeers)
          | .ok _ =>
            match env.newResourceTracker with
            | .error e => (.error e, attachedPeers)
            | .ok _ =>
              match env.upgrade with
              | .error e => (.error e, attachedPeers)
              | .ok _ =>
                match env.awaitReady with
                | .error e => (.error e, attachedPeers)
                | .ok _ =>
                  (.ok env.startedPeer,
                    registryInsert attachedPeers env.startedPeer.id env.startedPeer)

/-- `SendOutboundMessage attachedPeers peerID content op`: registry lookup,
"not attached" error when absent, otherwise the peer's send-path acceptance
with no error. -/
def SendOutboundMessage (attachedPeers : Registry) (peerID : String)
    (content : List Nat) (op : Nat) : Bool × Option String :=
  match mapGet attachedPeers peerID with
  | none => (false, some ("peer with ID " ++ peerID ++ " is not attached here"))
  | some attachedPeer =>
    (attachedPeer.sendAccepts (NewTestMsg op content false), none)

/-! ## File Provisioner (`writeFiles`, `createFileAndWrite`, `makeNodeDir`,
src/unnamed/part_000 lines 22-203)

Paths are lists of components: `filepath.Join(dir, name)` is `dir ++ [name]`
and `filepath.Dir(path)` is `path.dropLast`. -/

/-- A filesystem path, as a list of components. -/
abbrev Path : Type := List String

/-- The reserved local-network ID sentinel (`constants.LocalID` of the node
library). -/
def LocalID : Nat := 12345

/-- Per-node file names under the node root directory; constants of the
`local` package (their exact values are irrelevant to every property proved
here beyond being pairwise distinct). -/
def stakingKeyFileName : String := "staking.key"

def stakingCertFileName : String := "staking.crt"

def stakingSigningKeyFileName : String := "signer.key"

def genesisFileName : String := "genesis.json"

def configFileName : String := "config.json"

def upgradeConfigFileName : String := "upgrade.json"

def chainConfigSubDir : String := "chainConfigs"

def subnetConfigSubDir : String := "subnetConfigs"

/-- Well-known configuration flag keys of the node library (`config.*Key`). -/
def StakingTLSKeyPathKey : String := "staking-tls-key-file"

def StakingCertPathKey : String := "staking-tls-cert-file"

def StakingSignerKeyPathKey : String := "staking-signer-key-file"

def GenesisFileKey : String := "genesis-file"

def ConfigFileKey : String := "config-file"

def ChainConfigDirKey : String := "chain-config-dir"

def SubnetConfigDirKey : String := "subnet-config-dir"

/-- Directory permission bits passed to `os.MkdirAll` for every parent /
config directory created during provisioning (`0o750`). -/
def provisionDirPerm : Nat := 0o750

/-- Directory permission bits passed to `os.Mkdir` for the node root
directory (`0o755`). -/
def nodeRootDirPerm : Nat := 0o755

/-- Owner permission triple (rwx bits) of a Unix mode. -/
def permOwner (m : Nat) : Nat := m / 64 % 8

/-- Group permission triple (rwx bits) of a Unix mode. -/
def permGroup (m : Nat) : Nat := m / 8 % 8

/-- World (other) permission triple (rwx bits) of a Unix mode. -/
def permWorld (m : Nat) : Nat := m % 8

/-- Filesystem oracle: outcomes of the external effects provisioning performs
(base64 decoding of the staking signing key, `os.MkdirAll` per directory,
`os.Create`+`Write` per file path). -/
structure FsEnv where
  decodeBase64 : String → Option String
  mkdirOk : Path → Bool
  writeOk : Path → Bool

/-- The node-config fields consumed by provisioning (`node.Config`).  The
per-chain / per-subnet override maps are iterated by the source, so they are
modelled as association lists (Go's map iteration order is arbitrary and no
proved property depends on the list order). -/
structure NodeConfigM where
  stakingKey : String
  stakingCert : String
  stakingSigningKey : String
  configFile : String
  chainConfigFiles : List (String × String)
  upgradeConfigFiles : List (String × String)
  subnetConfigFiles : List (String × String)

/-- One entry of the `files` slice built by `writeFiles`. -/
structure FileSpec where
  pathKey : String
  flagValue : Path
  path : Path
  contents : String

/-- Everything a successful provisioning run did: the returned flag map, the
file writes (path, contents) and the directory creations (path, mode), each
in source order. -/
structure ProvisionOut where
  flags : List (String × Path)
  writes : List (Path × String)
  dirs : List (Path × Nat)

/-- `createFileAndWrite path contents`: `os.MkdirAll(filepath.Dir(path),
0o750)`, then create the file and write the contents.  On success it reports
the directory creation and the file write it performed. -/
def createFileAndWrite (env : FsEnv) (path : Path) (contents : String) :
    Except String ((Path × Nat) × (Path × String)) :=
  if env.mkdirOk path.dropLast then
    if env.writeOk path then .ok ((path.dropLast, provisionDirPerm), (path, contents))
    else .error "write failed"
  else .error "mkdir failed"

/-- The loop of `writeFiles` over the `files` slice: record
`flags[f.pathKey] = f.flagValue` and write each file, aborting on the first
write error (wrapped with the failing path). -/
def writeFilesLoop (env : FsEnv) :
    List FileSpec →
      Except String (List (String × Path) × List (Path × String) × List (Path × Nat))
  | [] => .ok ([], [], [])
  | f :: rest =>
    match createFileAndWrite env f.path f.contents with
    | .error e => .error ("couldn't write file at " ++ String.intercalate "/" f.path
        ++ ": " ++ e)
    | .ok (dirOp, writeOp) =>
      match writeFilesLoop env rest with
      | .error e => .error e
      | .ok (flags, writes, dirs) =>
        .ok ((f.pathKey, f.flagValue) :: flags, writeOp :: writes, dirOp :: dirs)

/-- The per-chain / per-subnet override loops of `writeFiles`: one
`createFileAndWrite` per entry, path built by `mk` from the entry's key,
aborting on the first error. -/
def writeOverridesLoop (env : FsEnv) (mk : String → Path) :
    List (String × String) →
      Except String (List (Path × String) × List (Path × Nat))
  | [] => .ok ([], [])
  | (alias_, contents) :: rest =>
    match createFileAndWrite env (mk alias_) contents with
    | .error e => .error ("couldn't write file at "
        ++ String.intercalate "/" (mk alias_) ++ ": " ++ e)
    | .ok (dirOp, writeOp) =>
      match writeOverridesLoop env mk rest with
      | .error e => .error e
      | .ok (writes, dirs) => .ok (writeOp :: writes, dirOp :: dirs)

/-- The `files` slice `writeFiles` assembles: the three staking files always;
the genesis file exactly when the network ID is not the local sentinel; the
node config file exactly when the config-file text is non-empty (Go:
`len(nodeConfig.ConfigFile) != 0`). -/
def writeFilesList (networkID : Nat) (genesis : String) (nodeRootDir : Path)
    (nodeConfig : NodeConfigM) (decodedStakingSigningKey : String) : List FileSpec :=
  [⟨StakingTLSKeyPathKey, nodeRootDir ++ [stakingKeyFileName],
      nodeRootDir ++ [stakingKeyFileName], nodeConfig.stakingKey⟩,
    ⟨StakingCertPathKey, nodeRootDir ++ [stakingCertFileName],
      nodeRootDir ++ [stakingCertFileName], nodeConfig.stakingCert⟩,
    ⟨StakingSignerKeyPathKey, nodeRootDir ++ [stakingSigningKeyFileName],
      nodeRootDir ++ [stakingSigningKeyFileName], decodedStakingSigningKey⟩]
  ++ (if networkID ≠ LocalID then
        [⟨GenesisFileKey, nodeRootDir ++ [genesisFileName],
          nodeRootDir ++ [genesisFileName], genesis⟩]
      else [])
  ++ (if nodeConfig.configFile ≠ "" then
        [⟨ConfigFileKey, nodeRootDir ++ [configFileName],
          nodeRootDir ++ [configFileName], nodeConfig.configFile⟩]
      else [])

/-- `writeFiles networkID genesis nodeRootDir nodeConfig`: decode the base64
staking signing key (failure aborts before any write), write the `files`
slice recording a flag per file, create the chain-config and subnet-config
directories recording their flag keys, then write the per-chain config /
upgrade overrides and the per-subnet config overrides. -/
def writeFiles (env : FsEnv) (networkID : Nat) (genesis : String)
    (nodeRootDir : Path) (nodeConfig : NodeConfigM) : Except String ProvisionOut :=
  match env.decodeBase64 nodeConfig.stakingSigningKey with
  | none => .error "illegal base64 data"
  | some decodedStakingSigningKey =>
    match writeFilesLoop env
        (writeFilesList networkID genesis nodeRootDir nodeConfig
          decodedStakingSigningKey) with
    | .error e => .error e
    | .ok (flags1, writes1, dirs1) =>
      let chainConfigDir := nodeRootDir ++ [chainConfigSubDir]
      if env.mkdirOk chainConfigDir then
        let subnetConfigDir := nodeRootDir ++ [subnetConfigSubDir]
        if env.mkdirOk subnetConfigDir then
          match writeOverridesLoop env
              (fun chainAlias => chainConfigDir ++ [chainAlias, configFileName])
              nodeConfig.chainConfigFiles with
          | .error e => .error e
          | .ok (writes2, dirs2) =>
            match writeOverridesLoop env
                (fun chainAlias => chainConfigDir ++ [chainAlias, upgradeConfigFileName])
                nodeConfig.upgradeConfigFiles with
            | .error e => .error e
            | .ok (writes3, dirs3) =>
              match writeOverridesLoop env
                  (fun subnetID => subnetConfigDir ++ [subnetID ++ ".json"])
                  nodeConfig.subnetConfigFiles with
              | .error e => .error e
              | .ok (writes4, dirs4) =>
                .ok
                  { flags := (SubnetConfigDirKey, subnetConfigDir)
                      :: (ChainConfigDirKey, chainConfigDir) :: flags1,
                    writes := writes1 ++ writes2 ++ writes3 ++ writes4,
                    dirs := dirs1
                      ++ [(chainConfigDir, provisionDirPerm),
                          (subnetConfigDir, provisionDirPerm)]
                      ++ dirs2 ++ dirs3 ++ dirs4 }
        else .error "mkdir failed"
      else .error "mkdir failed"

/-- `getNodeDir rootDir nodeName = filepath.Join(rootDir, nodeName)`. -/
def getNodeDir (rootDir : Path) (nodeName : String) : Path :=
  rootDir ++ [nodeName]

/-- `makeNodeDir`: `os.Mkdir(getNodeDir(rootDir, nodeName), 0o755)` — the
node root directory path together with the mode it is created with
("already exists" is downgraded to a warning by the source and does not
change the path returned). -/
def makeNodeDir (rootDir : Path) (nodeName : String) : Path × Nat :=
  (getNodeDir rootDir nodeName, nodeRootDirPerm)

/-! ## Shape of a successful provisioning run -/

theorem createFileAndWrite_ok (env : FsEnv) (path : Path) (contents : String)
    (r : (Path × Nat) × (Path × String))
    (h : createFileAndWrite env path contents = .ok r) :
    r = ((path.dropLast, provisionDirPerm), (path, contents)) := by
  unfold createFileAndWrite at h
  by_cases h1 : env.mkdirOk path.dropLast
  · rw [if_pos h1] at h
    by_cases h2 : env.writeOk path
    · rw [if_pos h2] at h
      cases h
      rfl
    · rw [if_neg h2] at h
      cases h
  · rw [if_neg h1] at h
    cases h

theorem writeFilesLoop_ok (env : FsEnv) (fs : List FileSpec)
    (flags : List (String × Path)) (writes : List (Path × String))
    (dirs : List (Path × Nat))
    (h : writeFilesLoop env fs = .ok (flags, writes, dirs)) :
    flags = fs.map (fun f => (f.pathKey, f.flagValue)) ∧
      writes = fs.map (fun f => (f.path, f.contents)) ∧
      dirs = fs.map (fun f => (f.path.dropLast, provisionDirPerm)) := by
  induction fs generalizing flags writes dirs with
  | nil =>
    unfold writeFilesLoop at h
    cases h
    exact ⟨rfl, rfl, rfl⟩
  | cons f rest ih =>
    unfold writeFilesLoop at h
    cases hcw : createFileAndWrite env f.path f.contents with
    | error e => rw [hcw] at h; cases h
    | ok r =>
      rw [hcw] at h
      obtain ⟨dirOp, writeOp⟩ := r
      cases hrest : writeFilesLoop env rest with
      | error e => rw [hrest] at h; cases h
      | ok triple =>
        rw [hrest] at h
        obtain ⟨flags0, writes0, dirs0⟩ := triple
        cases h
        have hr := createFileAndWrite_ok env f.path f.contents _ hcw
        rw [Prod.mk.injEq] at hr
        obtain ⟨h1, h2⟩ := hr
        subst h1 h2
        obtain ⟨hf, hw, hd⟩ := ih flags0 writes0 dirs0 hrest
        subst hf hw hd
        exact ⟨rfl, rfl, rfl⟩

theorem writeOverridesLoop_ok (env : FsEnv) (mk : String → Path)
    (l : List (String × String)) (writes : List (Path × String))
    (dirs : List (Path × Nat))
    (h : writeOverridesLoop env mk l = .ok (writes, dirs)) :
    writes = l.map (fun p => (mk p.1, p.2)) ∧
      dirs = l.map (fun p => ((mk p.1).dropLast, provisionDirPerm)) := by
  induction l generalizing writes dirs with
  | nil =>
    unfold writeOverridesLoop at h
    cases h
    exact ⟨rfl, rfl⟩
  | cons p rest ih =>
    obtain ⟨alias_, contents⟩ := p
    unfold writeOverridesLoop at h
    cases hcw : createFileAndWrite env (mk alias_) contents with
    | error e => rw [hcw] at h; cases h
    | ok r =>
      rw [hcw] at h
      obtain ⟨dirOp, writeOp⟩ := r
      cases hrest : writeOverridesLoop env mk rest with
      | error e => rw [hrest] at h; cases h
      | ok pr2 =>
        rw [hrest] at h
        obtain ⟨writes0, dirs0⟩ := pr2
        cases h
        have hr := createFileAndWrite_ok env (mk alias_) contents _ hcw
        rw [Prod.mk.injEq] at hr
        obtain ⟨h1, h2⟩ := hr
        subst h1 h2
        obtain ⟨hw, hd⟩ := ih writes0 dirs0 hrest
        subst hw hd
        exact ⟨rfl, rfl⟩

theorem writeFiles_ok_shape (env : FsEnv) (networkID : Nat) (genesis : String)
    (nodeRootDir : Path) (nodeConfig : NodeConfigM) (out : ProvisionOut)
    (h : writeFiles env networkID genesis nodeRootDir nodeConfig = .ok out) :
    ∃ decoded,
      env.decodeBase64 nodeConfig.stakingSigningKey = some decoded ∧
      out.flags = (SubnetConfigDirKey, nodeRootDir ++ [subnetConfigSubDir])
          :: (ChainConfigDirKey, nodeRootDir ++ [chainConfigSubDir])
          :: (writeFilesList networkID genesis nodeRootDir nodeConfig decoded).map
              (fun f => (f.pathKey, f.flagValue)) ∧
      out.writes = (writeFilesList networkID genesis nodeRootDir nodeConfig decoded).map
            (fun f => (f.path, f.contents))
          ++ nodeConfig.chainConfigFiles.map
              (fun p => ((nodeRootDir ++ [chainConfigSubDir]) ++ [p.1, configFileName], p.2))
          ++ nodeConfig.upgradeConfigFiles.map
              (fun p => ((nodeRootDir ++ [chainConfigSubDir]) ++ [p.1, upgradeConfigFileName], p.2))
          ++ nodeConfig.subnetConfigFiles.map
              (fun p => ((nodeRootDir ++ [subnetConfigSubDir]) ++ [p.1 ++ ".json"], p.2)) ∧
      out.dirs = (writeFilesList networkID genesis nodeRootDir nodeConfig decoded).map
            (fun f => (f.path.dropLast, provisionDirPerm))
          ++ [(nodeRootDir ++ [chainConfigSubDir], provisionDirPerm),
              (nodeRootDir ++ [subnetConfigSubDir], provisionDirPerm)]
          ++ nodeConfig.chainConfigFiles.map
              (fun p => (((nodeRootDir ++ [chainConfigSubDir]) ++ [p.1, configFileName]).dropLast,
                provisionDirPerm))
          ++ nodeConfig.upgradeConfigFiles.map
              (fun p => (((nodeRootDir ++ [chainConfigSubDir]) ++ [p.1, upgradeConfigFileName]).dropLast,
                provisionDirPerm))
          ++ nodeConfig.subnetConfigFiles.map
              (fun p => (((nodeRootDir ++ [subnetConfigSubDir]) ++ [p.1 ++ ".json"]).dropLast,
                provisionDirPerm)) := by
  unfold writeFiles at h
  split at h
  · cases h
  rename_i decoded hdec
  refine ⟨decoded, hdec, ?_⟩
  split at h
  · cases h
  rename_i t1 flags1 writes1 dirs1 hloop
  dsimp only at h
  split at h
  case isFalse => cases h
  rename_i hm1
  split at h
  case isFalse => cases h
  rename_i hm2
  split at h
  · cases h
  rename_i t2 writes2 dirs2 hloop2
  split at h
  · cases h
  rename_i t3 writes3 dirs3 hloop3
  split at h
  · cases h
  rename_i t4 writes4 dirs4 hloop4
  cases h
  obtain ⟨hf1, hw1, hd1⟩ := writeFilesLoop_ok env _ flags1 writes1 dirs1 hloop
  obtain ⟨hw2, hd2⟩ := writeOverridesLoop_ok env _ _ writes2 dirs2 hloop2
  obtain ⟨hw3, hd3⟩ := writeOverridesLoop_ok env _ _ writes3 dirs3 hloop3
  obtain ⟨hw4, hd4⟩ := writeOverridesLoop_ok env _ _ writes4 dirs4 hloop4
  subst hf1 hw1 hd1 hw2 hd2 hw3 hd3 hw4 hd4
  exact ⟨rfl, rfl, rfl⟩

/-! ## Claim theorems -/

/-- C1: for every invocation of `AttachPeer` that returns an error — at
ephemeral-identity generation, dial, message-creator / metrics /
resource-tracker construction, handshake upgrade, or the readiness wait
(readiness timeout and caller cancellation both surface as an `awaitReady`
error) — the attached-peer registry is left unchanged; a peer is inserted
(keyed by its derived identity string) exactly when `AttachPeer` returns
successfully. -/
theorem attachPeer_registry_only_on_success (env : AttachEnv) (reg : Registry) :
    (AttachPeer env reg).2 =
      match (AttachPeer env reg).1 with
      | .error _ => reg
      | .ok p => registryInsert reg p.id p := by
  obtain ⟨c, d, m1, m2, mt, rt, up, ar, p⟩ := env
  cases c <;> cases d <;> cases m1 <;> cases m2 <;> cases mt <;> cases rt
    <;> cases up <;> cases ar <;> rfl

/-- C3: after `addNetworkFlags A B`, the node flag map holds its original
value for every key present in `B` (whether or not `A` also has it), and holds
`A`'s value for every key present only in `A`. -/
theorem addNetworkFlags_spec (A B : List (String × GoVal)) :
    (∀ k v, mapGet B k = some v → mapGet (addNetworkFlags A B) k = some v) ∧
    (∀ k v, mapGet B k = none → mapGet A k = some v →
      mapGet (addNetworkFlags A B) k = some v) :=
  ⟨fun k v h => addNetworkFlags_preserves_node A B k v h,
   fun k v hB hA => addNetworkFlags_copies_network A B k v hB hA⟩

/-- Witness for C3 at concrete flag maps: the node map's value wins for the
shared key `"b"`, and the network map's value is copied for `"a"`. -/
theorem addNetworkFlags_spec_witness :
    mapGet (addNetworkFlags [("a", .vInt 1), ("b", .vInt 2)]
        [("b", .vInt 7), ("c", .vInt 9)]) "b" = some (.vInt 7) ∧
      mapGet (addNetworkFlags [("a", .vInt 1), ("b", .vInt 2)]
        [("b", .vInt 7), ("c", .vInt 9)]) "a" = some (.vInt 1) :=
  ⟨(addNetworkFlags_spec [("a", .vInt 1), ("b", .vInt 2)]
      [("b", .vInt 7), ("c", .vInt 9)]).1 "b" (.vInt 7) rfl,
   (addNetworkFlags_spec [("a", .vInt 1), ("b", .vInt 2)]
      [("b", .vInt 7), ("c", .vInt 9)]).2 "a" (.vInt 1) rfl rfl⟩

/-- C4: `getPort` returns the flag value truncated to 16 bits when it is an
`int` or a `float64` and a type-mismatch error for any other type; otherwise
the config-file value truncated to 16 bits only when it is a `float64`
(type-mismatch error otherwise, including for an `int`); otherwise the
OS-assigned free port. -/
theorem getPort_spec (flags configFile : String → Option GoVal)
    (freePort : Except String Nat) (portKey : String) :
    (∀ n, flags portKey = some (.vInt n) →
      getPort flags configFile freePort portKey = .ok (toPort16 n)) ∧
    (∀ f, flags portKey = some (.vFloat f) →
      getPort flags configFile freePort portKey = .ok (toPort16 f)) ∧
    (∀ v, flags portKey = some v → (∀ n, v ≠ .vInt n) → (∀ f, v ≠ .vFloat f) →
      getPort flags configFile freePort portKey =
        .error ("expected flag " ++ goQuote portKey ++ " to be int/float64 but got "
          ++ goTypeName v)) ∧
    (∀ f, flags portKey = none → configFile portKey = some (.vFloat f) →
      getPort flags configFile freePort portKey = .ok (toPort16 f)) ∧
    (∀ v, flags portKey = none → configFile portKey = some v →
      (∀ f, v ≠ .vFloat f) →
      getPort flags configFile freePort portKey =
        .error ("expected flag " ++ goQuote portKey ++ " to be float64 but got "
          ++ goTypeName v)) ∧
    (∀ p, flags portKey = none → configFile portKey = none → freePort = .ok p →
      getPort flags configFile freePort portKey = .ok p) := by
  refine ⟨?_, ?_, ?_, ?_, ?_, ?_⟩
  · intro n h
    unfold getPort
    rw [h]
  · intro f h
    unfold getPort
    rw [h]
  · intro v h hn hf
    unfold getPort
    rw [h]
    cases v with
    | vString s => rfl
    | vInt n => exact absurd rfl (hn n)
    | vFloat f => exact absurd rfl (hf f)
    | vBool b => rfl
  · intro f h1 h2
    unfold getPort
    rw [h1, h2]
  · intro v h1 h2 hf
    unfold getPort
    rw [h1, h2]
    cases v with
    | vString s => rfl
    | vInt n => rfl
    | vFloat f => exact absurd rfl (hf f)
    | vBool b => rfl
  · intro p h1 h2 h3
    unfold getPort
    rw [h1, h2, h3]

/-- Witness for C4: an `int` flag value 8080 resolves to 8080; a config-file
`float64` 9090 resolves to 9090; with neither source, the OS port 1234 is
returned; an `int` in the config-file map is a type-mismatch error. -/
theorem getPort_spec_witness :
    getPort (fun k => if k = "http-port" then some (.vInt 8080) else none)
        (fun _ => none) (.ok 1234) "http-port" = .ok 8080 ∧
      getPort (fun _ => none)
        (fun k => if k = "staking-port" then some (.vFloat 9090) else none)
        (.ok 1234) "staking-port" = .ok 9090 ∧
      getPort (fun _ => none) (fun _ => none) (.ok 1234) "http-port" = .ok 1234 ∧
      getPort (fun _ => none)
        (fun k => if k = "staking-port" then some (.vInt 9090) else none)
        (.ok 1234) "staking-port"
        = .error ("expected flag " ++ goQuote "staking-port"
            ++ " to be float64 but got " ++ goTypeName (.vInt 9090)) := by
  refine ⟨?_, ?_, ?_, ?_⟩
  · exact (getPort_spec (fun k => if k = "http-port" then some (.vInt 8080) else none)
      (fun _ => none) (.ok 1234) "http-port").1 8080 rfl
  · exact (getPort_spec (fun _ => none)
      (fun k => if k = "staking-port" then some (.vFloat 9090) else none)
      (.ok 1234) "staking-port").2.2.2.1 9090 rfl rfl
  · exact (getPort_spec (fun _ => none) (fun _ => none)
      (.ok 1234) "http-port").2.2.2.2.2 1234 rfl rfl rfl
  · exact (getPort_spec (fun _ => none)
      (fun k => if k = "staking-port" then some (.vInt 9090) else none)
      (.ok 1234) "staking-port").2.2.2.2.1 (.vInt 9090) rfl rfl
      (fun f heq => by cases heq)

/-- C5 (code bug in `getConfigEntry`): a non-string node-flag value does
produce a type-mismatch error naming the flag, but — because the Go source's
inner `entry, ok := val.(string)` shadows the outer `var entry string`, and
the `%T` argument refers to the outer variable — the reported type is always
`string`, never the actual type of the offending value (`int` here). -/
theorem getConfigEntry_reports_shadowed_type :
    getConfigEntry (fun k => if k = "http-port" then some (.vInt 9650) else none)
        (fun _ => none) "http-port" "default"
      = .error ("expected node config flag " ++ goQuote "http-port"
          ++ " to be string but got string") ∧
      goTypeName (.vInt 9650) ≠ "string" :=
  ⟨rfl, by decide⟩

/-- C9: `SendOutboundMessage` returns `false` with a "not attached" error for
a peer ID absent from the registry, and for a present peer returns the
outbound queue's acceptance of the opcode-tagged message with no error. -/
theorem sendOutboundMessage_spec (reg : Registry) (peerID : String)
    (content : List Nat) (op : Nat) :
    (mapGet reg peerID = none →
      SendOutboundMessage reg peerID content op =
        (false, some ("peer with ID " ++ peerID ++ " is not attached here"))) ∧
    (∀ p, mapGet reg peerID = some p →
      SendOutboundMessage reg peerID content op =
        (p.sendAccepts (NewTestMsg op content false), none)) := by
  constructor
  · intro h
    unfold SendOutboundMessage
    rw [h]
  · intro p h
    unfold SendOutboundMessage
    rw [h]

/-- Witness for C9 at a concrete one-peer registry. -/
theorem sendOutboundMessage_spec_witness :
    SendOutboundMessage [("NodeID-A", ⟨"NodeID-A", fun _ => true⟩)] "NodeID-B"
        [1, 2] 3 = (false, some ("peer with ID " ++ "NodeID-B" ++ " is not attached here")) ∧
      SendOutboundMessage [("NodeID-A", ⟨"NodeID-A", fun _ => true⟩)] "NodeID-A"
        [1, 2] 3 = (true, none) :=
  ⟨(sendOutboundMessage_spec [("NodeID-A", ⟨"NodeID-A", fun _ => true⟩)]
      "NodeID-B" [1, 2] 3).1 rfl,
   (sendOutboundMessage_spec [("NodeID-A", ⟨"NodeID-A", fun _ => true⟩)]
      "NodeID-A" [1, 2] 3).2 ⟨"NodeID-A", fun _ => true⟩ rfl⟩

/-- C10: with a non-empty config-file text, `GetFlag` consults only the
parsed config document — an absent key yields `""` with no error for every
flag map, including one holding a string under the key — and with an empty
config-file text it consults only the flag map, where an absent key (or a nil
map) likewise yields `""` with no error. -/
theorem getFlag_single_source_defaults
    (parseJson : String → Except String (String → Option GoVal))
    (configFile : String) (flags : Option (String → Option GoVal)) (k : String) :
    (∀ m, configFile ≠ "" → parseJson configFile = .ok m → m k = none →
      GetFlag parseJson configFile flags k = .ok "") ∧
    (∀ fm, configFile = "" → flags = some fm → fm k = none →
      GetFlag parseJson configFile flags k = .ok "") ∧
    (configFile = "" → flags = none → GetFlag parseJson configFile flags k = .ok "") := by
  refine ⟨?_, ?_, ?_⟩
  · intro m h1 h2 h3
    simp [GetFlag, h1, h2, h3]
  · intro fm h1 h2 h3
    simp [GetFlag, h1, h2, h3]
  · intro h1 h2
    simp [GetFlag, h1, h2]

/-- Witness for C10: with non-empty config text whose parsed document lacks
the key, `GetFlag` returns `""` even though the flag map holds a string for
that key; with empty config text an absent key or a nil map also yields `""`. -/
theorem getFlag_single_source_defaults_witness :
    GetFlag (fun _ => .ok (fun _ => none)) "non-empty-config"
        (some (fun _ => some (.vString "flag-value"))) "http-host" = .ok "" ∧
      GetFlag (fun _ => .ok (fun _ => none)) "" (some (fun _ => none))
        "http-host" = .ok "" ∧
      GetFlag (fun _ => .ok (fun _ => none)) "" none "http-host" = .ok "" := by
  refine ⟨?_, ?_, ?_⟩
  · exact (getFlag_single_source_defaults (fun _ => .ok (fun _ => none))
      "non-empty-config" (some (fun _ => some (.vString "flag-value")))
      "http-host").1 (fun _ => none) (by decide) rfl rfl
  · exact (getFlag_single_source_defaults (fun _ => .ok (fun _ => none))
      "" (some (fun _ => none)) "http-host").2.1 (fun _ => none) rfl rfl rfl
  · exact (getFlag_single_source_defaults (fun _ => .ok (fun _ => none))
      "" none "http-host").2.2 rfl rfl

/-- All per-node flag-key and file-name constants, for unfolding in proofs. -/
theorem provisioningNames_def :
    StakingTLSKeyPathKey = "staking-tls-key-file" ∧
      StakingCertPathKey = "staking-tls-cert-file" ∧
      StakingSignerKeyPathKey = "staking-signer-key-file" ∧
      GenesisFileKey = "genesis-file" ∧
      ConfigFileKey = "config-file" ∧
      ChainConfigDirKey = "chain-config-dir" ∧
      SubnetConfigDirKey = "subnet-config-dir" :=
  ⟨rfl, rfl, rfl, rfl, rfl, rfl, rfl⟩

/-- C6: for every network ID other than the local sentinel, a successful
provisioning run writes the genesis file under the node root and records its
path under the genesis flag key; for the local sentinel it writes no file at
the genesis path and produces no genesis flag entry. -/
theorem writeFiles_genesis_spec (env : FsEnv) (networkID : Nat) (genesis : String)
    (nodeRootDir : Path) (nodeConfig : NodeConfigM) (out : ProvisionOut)
    (h : writeFiles env networkID genesis nodeRootDir nodeConfig = .ok out) :
    (networkID ≠ LocalID →
      mapGet out.flags GenesisFileKey = some (nodeRootDir ++ [genesisFileName]) ∧
      (nodeRootDir ++ [genesisFileName], genesis) ∈ out.writes) ∧
    (networkID = LocalID →
      mapGet out.flags GenesisFileKey = none ∧
      ∀ c, (nodeRootDir ++ [genesisFileName], c) ∉ out.writes) := by
  obtain ⟨decoded, hdec, hflags, hwrites, hdirs⟩ :=
    writeFiles_ok_shape env networkID genesis nodeRootDir nodeConfig out h
  constructor
  · intro hne
    constructor
    · rw [hflags]
      by_cases hc : nodeConfig.configFile = "" <;>
        simp [writeFilesList, hne, hc, mapGet, SubnetConfigDirKey, ChainConfigDirKey,
          StakingTLSKeyPathKey, StakingCertPathKey, StakingSignerKeyPathKey,
          GenesisFileKey, ConfigFileKey]
    · rw [hwrites]
      by_cases hc : nodeConfig.configFile = "" <;> simp [writeFilesList, hne, hc]
  · intro heq
    constructor
    · rw [hflags]
      by_cases hc : nodeConfig.configFile = "" <;>
        simp [writeFilesList, heq, hc, mapGet, SubnetConfigDirKey, ChainConfigDirKey,
          StakingTLSKeyPathKey, StakingCertPathKey, StakingSignerKeyPathKey,
          GenesisFileKey, ConfigFileKey]
    · intro c hmem
      rw [hwrites] at hmem
      simp only [writeFilesList, heq, ne_eq, not_true_eq_false, if_false,
        List.append_nil, List.nil_append, List.map_append, List.map_cons,
        List.map_nil, List.cons_append, List.mem_append, List.mem_cons,
        List.mem_map, List.not_mem_nil, or_false, false_or] at hmem
      rcases hmem with h1 | h2 | h3 | ((hB | hC) | hD) | hE
      · have := List.append_cancel_left (congrArg Prod.fst h1)
        simp [genesisFileName, stakingKeyFileName] at this
      · have := List.append_cancel_left (congrArg Prod.fst h2)
        simp [genesisFileName, stakingCertFileName] at this
      · have := List.append_cancel_left (congrArg Prod.fst h3)
        simp [genesisFileName, stakingSigningKeyFileName] at this
      · obtain ⟨a, ha, hae⟩ := hB
        by_cases hc : nodeConfig.configFile = ""
        · simp [hc] at ha
        · simp [hc] at ha
          subst ha
          have := List.append_cancel_left (congrArg Prod.fst hae)
          simp [configFileName, genesisFileName] at this
      · obtain ⟨a, ha, hae⟩ := hC
        have hp := congrArg Prod.fst hae
        simp only [List.append_assoc] at hp
        have := List.append_cancel_left hp
        simp at this
      · obtain ⟨a, ha, hae⟩ := hD
        have hp := congrArg Prod.fst hae
        simp only [List.append_assoc] at hp
        have := List.append_cancel_left hp
        simp at this
      · obtain ⟨a, ha, hae⟩ := hE
        have hp := congrArg Prod.fst hae
        simp only [List.append_assoc] at hp
        have := List.append_cancel_left hp
        simp at this

/-- Concrete filesystem oracle for witnesses: base64 decoding succeeds and
every directory creation and file write succeeds. -/
def exFsEnv : FsEnv := ⟨fun _ => some "decoded-signer", fun _ => true, fun _ => true⟩

/-- Concrete node config with empty config-file text and no overrides. -/
def exNodeConfig : NodeConfigM :=
  ⟨"staking-key-pem", "staking-cert-pem", "c2lnbmVy", "", [], [], []⟩

/-- Concrete node config with non-empty config-file text. -/
def exNodeConfigFile : NodeConfigM :=
  ⟨"staking-key-pem", "staking-cert-pem", "c2lnbmVy", "cfg-text", [], [], []⟩

/-- A concrete provisioning run under `exFsEnv`. -/
def exProvision (networkID : Nat) (cfg : NodeConfigM) : Except String ProvisionOut :=
  writeFiles exFsEnv networkID "genesis-bytes" ["netroot", "node1"] cfg

/-- Fallback output for extracting a successful run's result. -/
def emptyOut : ProvisionOut := ⟨[], [], []⟩

/-- Witness for C6: at network ID 1 the genesis flag points at the genesis
file under the node root; at the local sentinel the genesis flag is absent. -/
theorem writeFiles_genesis_spec_witness :
    mapGet ((exProvision 1 exNodeConfig).toOption.getD emptyOut).flags GenesisFileKey
        = some (["netroot", "node1"] ++ [genesisFileName]) ∧
      mapGet ((exProvision LocalID exNodeConfig).toOption.getD emptyOut).flags
        GenesisFileKey = none :=
  ⟨((writeFiles_genesis_spec exFsEnv 1 "genesis-bytes" ["netroot", "node1"]
      exNodeConfig ((exProvision 1 exNodeConfig).toOption.getD emptyOut) rfl).1
      (by decide)).1,
   ((writeFiles_genesis_spec exFsEnv LocalID "genesis-bytes" ["netroot", "node1"]
      exNodeConfig ((exProvision LocalID exNodeConfig).toOption.getD emptyOut) rfl).2
      rfl).1⟩

/-- C7: a successful provisioning run with empty config-file text writes no
file at the node config path and leaves the config-file flag key absent; with
non-empty text it writes the file under the node root and records its path
under the config-file flag key. -/
theorem writeFiles_configFile_spec (env : FsEnv) (networkID : Nat)
    (genesis : String) (nodeRootDir : Path) (nodeConfig : NodeConfigM)
    (out : ProvisionOut)
    (h : writeFiles env networkID genesis nodeRootDir nodeConfig = .ok out) :
    (nodeConfig.configFile = "" →
      mapGet out.flags ConfigFileKey = none ∧
      ∀ c, (nodeRootDir ++ [configFileName], c) ∉ out.writes) ∧
    (nodeConfig.configFile ≠ "" →
      mapGet out.flags ConfigFileKey = some (nodeRootDir ++ [configFileName]) ∧
      (nodeRootDir ++ [configFileName], nodeConfig.configFile) ∈ out.writes) := by
  obtain ⟨decoded, hdec, hflags, hwrites, hdirs⟩ :=
    writeFiles_ok_shape env networkID genesis nodeRootDir nodeConfig out h
  constructor
  · intro hc
    constructor
    · rw [hflags]
      by_cases hg : networkID = LocalID <;>
        simp [writeFilesList, hg, hc, mapGet, SubnetConfigDirKey, ChainConfigDirKey,
          StakingTLSKeyPathKey, StakingCertPathKey, StakingSignerKeyPathKey,
          GenesisFileKey, ConfigFileKey]
    · intro c hmem
      rw [hwrites] at hmem
      simp only [writeFilesList, hc, ne_eq, not_true_eq_false, if_false,
        List.append_nil, List.nil_append, List.map_append, List.map_cons,
        List.map_nil, List.cons_append, List.mem_append, List.mem_cons,
        List.mem_map, List.not_mem_nil, or_false, false_or] at hmem
      rcases hmem with h1 | h2 | h3 | ((hB | hC) | hD) | hE
      · have := List.append_cancel_left (congrArg Prod.fst h1)
        simp [configFileName, stakingKeyFileName] at this
      · have := List.append_cancel_left (congrArg Prod.fst h2)
        simp [configFileName, stakingCertFileName] at this
      · have := List.append_cancel_left (congrArg Prod.fst h3)
        simp [configFileName, stakingSigningKeyFileName] at this
      · obtain ⟨a, ha, hae⟩ := hB
        by_cases hg : networkID = LocalID
        · simp [hg] at ha
        · simp [hg] at ha
          subst ha
          have := List.append_cancel_left (congrArg Prod.fst hae)
          simp [configFileName, genesisFileName] at this
      · obtain ⟨a, ha, hae⟩ := hC
        have hp := congrArg Prod.fst hae
        simp only [List.append_assoc] at hp
        have := List.append_cancel_left hp
        simp at this
      · obtain ⟨a, ha, hae⟩ := hD
        have hp := congrArg Prod.fst hae
        simp only [List.append_assoc] at hp
        have := List.append_cancel_left hp
        simp at this
      · obtain ⟨a, ha, hae⟩ := hE
        have hp := congrArg Prod.fst hae
        simp only [List.append_assoc] at hp
        have := List.append_cancel_left hp
        simp at this
  · intro hc
    constructor
    · rw [hflags]
      by_cases hg : networkID = LocalID <;>
        simp [writeFilesList, hg, hc, mapGet, SubnetConfigDirKey, ChainConfigDirKey,
          StakingTLSKeyPathKey, StakingCertPathKey, StakingSignerKeyPathKey,
          GenesisFileKey, ConfigFileKey]
    · rw [hwrites]
      by_cases hg : networkID = LocalID <;> simp [writeFilesList, hg, hc]

/-- Witness for C7: with empty config text the config-file flag is absent;
with non-empty text it points at the config file under the node root. -/
theorem writeFiles_configFile_spec_witness :
    mapGet ((exProvision 1 exNodeConfig).toOption.getD emptyOut).flags ConfigFileKey
        = none ∧
      mapGet ((exProvision 1 exNodeConfigFile).toOption.getD emptyOut).flags
        ConfigFileKey = some (["netroot", "node1"] ++ [configFileName]) :=
  ⟨((writeFiles_configFile_spec exFsEnv 1 "genesis-bytes" ["netroot", "node1"]
      exNodeConfig ((exProvision 1 exNodeConfig).toOption.getD emptyOut) rfl).1
      rfl).1,
   ((writeFiles_configFile_spec exFsEnv 1 "genesis-bytes" ["netroot", "node1"]
      exNodeConfigFile ((exProvision 1 exNodeConfigFile).toOption.getD emptyOut) rfl).2
      (by decide)).1⟩

/-- C8 counterexample: in a concrete successful provisioning run the
chain-config directory is created with mode `0o750`, whose group bits are
read+execute only — not the claimed owner+group read/write/execute — and the
node root directory is created with mode `0o755`, which grants world
read/execute — not the claimed owner-only access. -/
theorem provisioning_dirPerm_counterexample :
    (["netroot", "node1"] ++ [chainConfigSubDir], provisionDirPerm)
        ∈ ((exProvision 1 exNodeConfig).toOption.getD emptyOut).dirs ∧
      permGroup provisionDirPerm ≠ 7 ∧
      permWorld (makeNodeDir ["netroot"] "node1").2 ≠ 0 :=
  ⟨by decide, by decide, by decide⟩

/-- C8 amended: every directory created during provisioning is created with
mode `0o750` — owner read/write/execute, group read/execute, no world
access — and the node root directory with mode `0o755` — owner
read/write/execute, group and world read/execute. -/
theorem provisioning_dirPerm_amended (env : FsEnv) (networkID : Nat)
    (genesis : String) (nodeRootDir : Path) (nodeConfig : NodeConfigM)
    (out : ProvisionOut)
    (h : writeFiles env networkID genesis nodeRootDir nodeConfig = .ok out) :
    (∀ d ∈ out.dirs, d.2 = provisionDirPerm) ∧
      permOwner provisionDirPerm = 7 ∧ permGroup provisionDirPerm = 5 ∧
      permWorld provisionDirPerm = 0 ∧
      (∀ rootDir nodeName, (makeNodeDir rootDir nodeName).2 = nodeRootDirPerm) ∧
      permOwner nodeRootDirPerm = 7 ∧ permGroup nodeRootDirPerm = 5 ∧
      permWorld nodeRootDirPerm = 5 := by
  obtain ⟨decoded, hdec, hflags, hwrites, hdirs⟩ :=
    writeFiles_ok_shape env networkID genesis nodeRootDir nodeConfig out h
  refine ⟨?_, by decide, by decide, by decide, fun _ _ => rfl, by decide, by decide,
    by decide⟩
  intro d hd
  rw [hdirs] at hd
  simp only [List.mem_append, List.mem_cons, List.mem_map, List.not_mem_nil,
    or_false, false_or] at hd
  rcases hd with (((⟨a, _, rfl⟩ | (rfl | rfl)) | ⟨a, _, rfl⟩) | ⟨a, _, rfl⟩) | ⟨a, _, rfl⟩
    <;> rfl

/-- Witness for the amended C8 at a concrete provisioning run. -/
theorem provisioning_dirPerm_amended_witness :
    (["netroot", "node1"] ++ [chainConfigSubDir], provisionDirPerm).2
        = provisionDirPerm ∧
      permWorld provisionDirPerm = 0 ∧
      (makeNodeDir ["netroot"] "node1").2 = nodeRootDirPerm := by
  have t := provisioning_dirPerm_amended exFsEnv 1 "genesis-bytes"
    ["netroot", "node1"] exNodeConfig
    ((exProvision 1 exNodeConfig).toOption.getD emptyOut) rfl
  exact ⟨t.1 (["netroot", "node1"] ++ [chainConfigSubDir], provisionDirPerm)
      (by decide),
    t.2.2.2.1, t.2.2.2.2.1 ["netroot"] "node1"⟩

end Netrunner
